import Mathlib

/-!
Verification of the `fetchiva` HTTP-client library (TypeScript sources in
`src/config.ts`, `src/errors.ts`, `src/fetchiva.ts`, `src/types.ts`).

The development shallowly embeds the request execution engine: JavaScript
strings are Lean `String`s, JS string primitives (`includes`, `startsWith`,
`endsWith`, `slice(0,-1)`) are implemented over the underlying character
lists, records are association lists, `undefined`-able values are `Option`s,
and the external transport (`fetch`) is a function from the attempt index to
an outcome.  The engine `runFrom` mirrors the `while` loop of `fetchiva`
(src/fetchiva.ts lines 101-212) with the loop bound made explicit as fuel
(`fuel = maxRetries + 1 - attempt`, exactly the number of iterations the
source loop can still perform).
-/

namespace Fetchiva

/-- Exact-match test of one character list being an initial segment of
another; used to embed JS `String.prototype.startsWith`. -/
def listLeads : List Char → List Char → Bool
  | [], _ => true
  | _ :: _, [] => false
  | a :: s, b :: t => a == b && listLeads s t

/-- Substring occurrence test on character lists; used to embed JS
`String.prototype.includes`. -/
def listInside (sub : List Char) : List Char → Bool
  | [] => listLeads sub []
  | c :: t => listLeads sub (c :: t) || listInside sub t

/-- JS `s.includes(sub)`. -/
def jsIncludes (s sub : String) : Bool := listInside sub.data s.data

/-- JS `s.startsWith(p)`. -/
def jsStartsWith (s p : String) : Bool := listLeads p.data s.data

/-- JS `s.endsWith(suf)`. -/
def jsEndsWith (s suf : String) : Bool := listLeads suf.data.reverse s.data.reverse

/-- JS `s.slice(0, -1)`: the string without its final character. -/
def jsDropLast (s : String) : String := ⟨s.data.dropLast⟩

/-- JS `s.slice(1)`: the string without its first character. -/
def jsDropFirst (s : String) : String := ⟨s.data.tail⟩

/-- A raw JavaScript error as the engine observes it: only its `name` and
`message` are inspected by `fetchiva`'s classification logic. -/
structure JsError where
  name : String
  message : String
  deriving DecidableEq

/-- Payload of an `HttpError` (src/errors.ts lines 97-114): status,
statusText, and the request context url/method. -/
structure HttpData where
  status : Nat
  statusText : String
  url : String
  method : Option String
  deriving DecidableEq

/-- A value that can be thrown inside the engine's `try` block: either a
raw JS error coming from the transport / body parsing, or the engine's own
`HttpError` constructed at src/fetchiva.ts lines 137-145 and thrown at line
150 (that throw is caught by the engine's own `catch` at line 171). -/
inductive Thrown where
  | js (e : JsError)
  | httpE (h : HttpData)
  deriving DecidableEq

/-- The `name` property of a thrown value (`HttpError` sets
`this.name = "HttpError"`, src/errors.ts line 110). -/
def Thrown.errName : Thrown → String
  | .js e => e.name
  | .httpE _ => "HttpError"

/-- The `message` property of a thrown value (the engine constructs
`HTTP ${status}: ${statusText}` at src/fetchiva.ts line 138). -/
def Thrown.errMessage : Thrown → String
  | .js e => e.message
  | .httpE h => "HTTP " ++ toString h.status ++ ": " ++ h.statusText

/-- The classified (or raw) error a `fetchiva` call terminates with,
mirroring the error taxonomy of src/errors.ts plus the raw passthrough
case of src/fetchiva.ts line 191. -/
inductive EngineError where
  | http (h : HttpData)
  | timeoutE (message : String) (cause : Thrown) (url : String) (method : Option String)
  | networkE (message : String) (cause : Thrown) (url : String) (method : Option String)
  | rawE (e : JsError)
  deriving DecidableEq

/-- The `type` discriminant of a classified error (`none` for a raw,
unclassified error). -/
def EngineError.kind : EngineError → Option String
  | .http _ => some "http"
  | .timeoutE .. => some "timeout"
  | .networkE .. => some "network"
  | .rawE _ => none

/-- `isRetryableError` (src/fetchiva.ts lines 17-30): instanceof checks on
the taxonomy first, then name/message heuristics on raw errors. -/
def isRetryableError : EngineError → Bool
  | .timeoutE .. => true
  | .networkE .. => true
  | .http h => 500 ≤ h.status && h.status < 600
  | .rawE e =>
      e.name == "TypeError" || e.name == "AbortError" ||
      jsIncludes e.message "network" || jsIncludes e.message "fetch"

/-- `isRetryableStatus` (src/fetchiva.ts lines 32-34). -/
def isRetryableStatus (status : Nat) : Bool := 500 ≤ status && status < 600

/-- `isTimeoutAbort` (src/fetchiva.ts lines 36-38):
`error.name === "AbortError" && controller?.signal.aborted === true`.
`controllerExists` models `controller` being defined (a timeout was
configured for the attempt) and `ctrlAborted` models the controller's
`signal.aborted` flag; the only `abort()` call in the source is the timeout
timer's callback (line 107), so the flag is true exactly when this
attempt's own timer has fired. -/
def isTimeoutAbortB (name : String) (controllerExists ctrlAborted : Bool) : Bool :=
  name == "AbortError" && (controllerExists && ctrlAborted)

/-- `isNetworkLikeError` (src/fetchiva.ts lines 40-47). -/
def isNetworkLikeErrorB (name message : String) : Bool :=
  name == "TypeError" || jsIncludes message "network" ||
  jsIncludes message "fetch" || jsIncludes message "Failed to fetch"

/-- The `catch` block's classification (src/fetchiva.ts lines 171-192):
timeout if the abort came from the attempt's own timer, else network-like
errors are wrapped in `NetworkError` (with the JS `||` falsy-default on the
message, line 185), else the raw thrown value passes through unchanged. -/
def classifyThrown (t : Thrown) (controllerExists ctrlAborted : Bool)
    (timeoutMs : Nat) (url : String) (method : Option String) : EngineError :=
  if isTimeoutAbortB t.errName controllerExists ctrlAborted then
    .timeoutE ("Request timeout after " ++ toString timeoutMs ++ "ms") t url method
  else if isNetworkLikeErrorB t.errName t.errMessage then
    .networkE (if t.errMessage = "" then "Network error" else t.errMessage) t url method
  else
    match t with
    | .js e => .rawE e
    | .httpE h => .http h

/-- `buildURL` (src/fetchiva.ts lines 58-69).  `baseURL ?? global` is the
JS nullish-coalescing of the per-call base over the configured one, and
`!base` is JS falsiness, which for strings also holds for `""`. -/
def buildURL (path : String) (baseURL globalBaseURL : Option String) : String :=
  let base : Option String :=
    match baseURL with
    | some b => some b
    | none => globalBaseURL
  match base with
  | none => path
  | some b =>
    if b = "" then path
    else
      let normalizedBase := if jsEndsWith b "/" then jsDropLast b else b
      let normalizedPath := if jsStartsWith path "/" then path else "/" ++ path
      normalizedBase ++ normalizedPath

/-- The spec's `resolve(B, P)` (spec §4.2 / §8): URL building with an
explicit base `B` and path `P` (per-call base present, so the global one is
irrelevant). -/
def resolve (B P : String) : String := buildURL P (some B) none

/-- The spec's `stripLeadingSlash` (spec §8, "URL-building idempotence"):
removes a single leading `/` when present.  This is spec vocabulary, not
repository code; it is defined from the spec's words. -/
def stripLeadingSlash (P : String) : String :=
  if jsStartsWith P "/" then jsDropFirst P else P

/-- JS-object-spread update of an association-list record: an existing key
is overwritten in place, a new key is appended (insertion-order semantics
of JS objects). -/
def recordSet (m : List (String × String)) (k v : String) : List (String × String) :=
  if m.any (fun p => p.1 == k) then
    m.map (fun p => if p.1 == k then (k, v) else p)
  else
    m ++ [(k, v)]

/-- JS `{...g, ...r}` on string records. -/
def mergeRecord (g r : List (String × String)) : List (String × String) :=
  r.foldl (fun m p => recordSet m p.1 p.2) g

/-- `RetryConfig` (src/types.ts): both fields optional. -/
structure RetryConfig where
  retries : Option Nat := none
  retryDelay : Option Nat := none
  deriving DecidableEq

/-- The set of abort sources wired into the signal handed to the transport.
The source has no signal-combination primitive: line 115 of
src/fetchiva.ts is `signal: controller?.signal ?? options.signal`, so the
dispatched signal is abortable by the timeout timer, or by the caller's
signal, but never by both. -/
structure SignalSources where
  timer : Bool
  caller : Bool
  deriving DecidableEq

/-- The signal field the engine writes into the request context
(src/fetchiva.ts line 115): the controller's signal when a timeout is
configured, otherwise the caller-supplied signal (if any). -/
def dispatchSignal (controllerExists callerSignal : Bool) : SignalSources :=
  if controllerExists then ⟨true, false⟩ else ⟨false, callerSignal⟩

/-- The transport-level options of a request context
(`FetchivaRequestContext.options`, src/types.ts). -/
structure TransportOptions where
  method : Option String
  headers : List (String × String)
  signal : SignalSources
  body : Option String
  deriving DecidableEq

/-- `FetchivaRequestContext` (src/types.ts): the fully resolved request as
handed to the transport; replaceable by the `onRequest` hook. -/
structure ReqCtx where
  url : String
  options : TransportOptions
  deriving DecidableEq

/-- `FetchivaResponse` (src/types.ts). -/
structure FetchivaResponse (δ : Type) where
  data : δ
  status : Nat
  statusText : String
  headers : List (String × String)
  ok : Bool
  deriving DecidableEq

/-- `FetchivaConfig` (src/types.ts): the global configuration value.
Hooks that may return a replacement are embedded as functions into
`Option` (a `none` result models the hook returning nothing / a falsy
value, which keeps the original).  `onError` returns nothing, so only its
presence matters to the engine's control flow; its invocations are
recorded as events. -/
structure FetchivaConfig (δ : Type) where
  baseURL : Option String := none
  headers : Option (List (String × String)) := none
  timeout : Option Nat := none
  retry : Option RetryConfig := none
  onRequest : Option (ReqCtx → Option ReqCtx) := none
  onResponse : Option (FetchivaResponse δ → Option (FetchivaResponse δ)) := none
  onError : Bool := false

/-- `FetchivaRequestOptions` (src/types.ts): per-call options.
`callerSignal` models whether the caller supplied a cancellation signal. -/
structure FetchivaRequestOptions where
  baseURL : Option String := none
  headers : Option (List (String × String)) := none
  timeout : Option Nat := none
  retry : Option RetryConfig := none
  method : Option String := none
  body : Option String := none
  callerSignal : Bool := false

/-- `getRetryConfig` (src/fetchiva.ts lines 49-52):
`{...(getConfig().retry ?? {}), ...requestRetry}` — object spread, so a
field present in the request retry overrides the global one. -/
def getRetryConfig {δ : Type} (cfg : FetchivaConfig δ)
    (requestRetry : Option RetryConfig) : RetryConfig :=
  let globalRetry := cfg.retry.getD {}
  match requestRetry with
  | none => globalRetry
  | some r =>
    { retries := r.retries <|> globalRetry.retries
      retryDelay := r.retryDelay <|> globalRetry.retryDelay }

/-- `mergeHeaders` (src/fetchiva.ts lines 71-76). -/
def mergeHeaders {δ : Type} (cfg : FetchivaConfig δ)
    (requestHeaders : Option (List (String × String))) : List (String × String) :=
  mergeRecord (cfg.headers.getD []) (requestHeaders.getD [])

/-- `getTimeout` (src/fetchiva.ts lines 78-80). -/
def getTimeout {δ : Type} (cfg : FetchivaConfig δ) (requestTimeout : Option Nat) : Option Nat :=
  requestTimeout <|> cfg.timeout

/-- `DEFAULT_RETRY_DELAY` (src/fetchiva.ts line 15). -/
def DEFAULT_RETRY_DELAY : Nat := 1000

/-- Everything a logical call resolves from the configuration snapshot and
its options in the synchronous prelude of `fetchiva`
(src/fetchiva.ts lines 88-96), together with the snapshot's hooks. -/
structure ResolvedCall (δ : Type) where
  url : String
  headers : List (String × String)
  timeoutMs : Option Nat
  maxRetries : Nat
  retryDelay : Nat
  method : Option String
  body : Option String
  callerSignal : Bool
  onRequest : Option (ReqCtx → Option ReqCtx)
  onResponse : Option (FetchivaResponse δ → Option (FetchivaResponse δ))
  onError : Bool

/-- The synchronous prelude of `fetchiva` (src/fetchiva.ts lines 88-96):
all `getConfig()` reads of a call (lines 50, 59, 74, 79 and 88) execute
here, before the first `await`. -/
def resolveCall {δ : Type} (cfg : FetchivaConfig δ) (path : String)
    (opts : FetchivaRequestOptions) : ResolvedCall δ :=
  let retryConfig := getRetryConfig cfg opts.retry
  { url := buildURL path opts.baseURL cfg.baseURL
    headers := mergeHeaders cfg opts.headers
    timeoutMs := getTimeout cfg opts.timeout
    maxRetries := retryConfig.retries.getD 0
    retryDelay := retryConfig.retryDelay.getD DEFAULT_RETRY_DELAY
    method := opts.method
    body := opts.body
    callerSignal := opts.callerSignal
    onRequest := cfg.onRequest
    onResponse := cfg.onResponse
    onError := cfg.onError }

/-- `Response.ok` of the Fetch API: the status is in the range 200-299.
The transport collaborator is the platform `fetch` (spec §6), whose
`Response.ok` is defined this way; the engine reads it at
src/fetchiva.ts line 136. -/
def respOk (status : Nat) : Bool := 200 ≤ status && status < 300

/-- One dispatch attempt's outcome, as supplied by the external transport:
either a response (whose `json()` body read yields data or throws), or a
rejection.  `timerFired` / `timerFiredDuringBody` model whether this
attempt's own timeout timer had fired by the time the failure is caught
(the only `abort()` in the source is the timer callback at
src/fetchiva.ts line 107, so the controller's `aborted` flag is set
exactly when that attempt's timer fired). -/
inductive AttemptOutcome (δ : Type) where
  | resp (status : Nat) (statusText : String) (headers : List (String × String))
      (jsonResult : Except JsError δ) (timerFiredDuringBody : Bool)
  | reject (e : JsError) (timerFired : Bool)

/-- Observable actions of one logical call: transport dispatches
(src/fetchiva.ts line 127, with the context actually dispatched), body
parses (line 153), and `onError` hook invocations (lines 148, 204, 215). -/
inductive Event where
  | dispatch (attempt : Nat) (ctx : ReqCtx)
  | jsonCall (attempt : Nat)
  | onErrorCall (e : EngineError)
  deriving DecidableEq

/-- The final fate of a logical call: a returned response, a thrown
(classified or raw) error, or the unreachable-in-practice loop exit with
`lastError` still `undefined` (src/fetchiva.ts line 217). -/
inductive RunResult (δ : Type) where
  | ok (r : FetchivaResponse δ)
  | err (e : EngineError)
  | errNone
  deriving DecidableEq

/-- The `data` of a successful result, if any. -/
def RunResult.okData {δ : Type} : RunResult δ → Option δ
  | .ok r => some r.data
  | _ => none

/-- The terminal error of a failed result, if any. -/
def RunResult.terminalError {δ : Type} : RunResult δ → Option EngineError
  | .err e => some e
  | _ => none

/-- What one iteration of the engine loop decides to do next:
retry keeping `lastError` (the 5xx status branch, src/fetchiva.ts lines
129-134, which constructs no error), retry after recording a classified
error as `lastError` (lines 196-201), or finish. -/
inductive StepRes (δ : Type) where
  | retryKeep (pre : List Event)
  | retrySet (e : EngineError) (pre : List Event)
  | done (r : RunResult δ) (evs : List Event)

/-- The request context built for an attempt (src/fetchiva.ts lines
110-117), then optionally replaced by the `onRequest` hook (lines
120-125; a falsy hook result keeps the original).  The context is
rebuilt identically on every attempt, so it is a function of the
resolved call alone. -/
def buildCtx {δ : Type} (rc : ResolvedCall δ) : ReqCtx :=
  let ctx0 : ReqCtx :=
    { url := rc.url
      options :=
        { method := rc.method
          headers := rc.headers
          signal := dispatchSignal rc.timeoutMs.isSome rc.callerSignal
          body := rc.body } }
  match rc.onRequest with
  | none => ctx0
  | some f => (f ctx0).getD ctx0

/-- The retry-or-fail decision of the engine's `catch` block
(src/fetchiva.ts lines 194-206) on an already classified error: retry
while the error is retryable and budget remains, otherwise invoke
`onError` and fail with the error.  `pre` carries events already emitted
inside the `try` block before the throw. -/
def catchWith {δ : Type} (rc : ResolvedCall δ) (attempt : Nat) (e : EngineError)
    (pre : List Event) : StepRes δ :=
  if isRetryableError e && decide (attempt < rc.maxRetries) then
    .retrySet e pre
  else
    .done (.err e) (pre ++ (if rc.onError then [Event.onErrorCall e] else []))

/-- The `catch` block applied to a thrown value: classification
(src/fetchiva.ts lines 172-192) followed by the retry-or-fail decision
(`catchWith`). -/
def catchStep {δ : Type} (rc : ResolvedCall δ) (ctx : ReqCtx) (attempt : Nat)
    (t : Thrown) (ctrlAborted : Bool) (pre : List Event) : StepRes δ :=
  catchWith rc attempt
    (classifyThrown t rc.timeoutMs.isSome ctrlAborted (rc.timeoutMs.getD 0)
      ctx.url ctx.options.method) pre

/-- One iteration of the engine loop body after the dispatch resolves
(src/fetchiva.ts lines 129-206).  The non-ok branch invokes `onError`
(line 148) and then throws the freshly built `HttpError` (line 150); that
throw lands in the engine's own `catch` at line 171, which is why the
branch continues into `catchStep`.  `isTimeoutAbort` is name-based and an
`HttpError` is never named `AbortError`, so the controller flag passed
for that rethrow is irrelevant; `false` is used. -/
def attemptStep {δ : Type} (rc : ResolvedCall δ) (ctx : ReqCtx) (attempt : Nat)
    (outcome : AttemptOutcome δ) : StepRes δ :=
  match outcome with
  | .reject e timerFired => catchStep rc ctx attempt (.js e) timerFired []
  | .resp status statusText hdrs jsonRes timerFiredBody =>
    if isRetryableStatus status && decide (attempt < rc.maxRetries) then
      .retryKeep []
    else if !(respOk status) then
      let h : HttpData := ⟨status, statusText, ctx.url, ctx.options.method⟩
      let pre := if rc.onError then [Event.onErrorCall (.http h)] else []
      catchStep rc ctx attempt (.httpE h) false pre
    else
      match jsonRes with
      | .ok d =>
        let result0 : FetchivaResponse δ := ⟨d, status, statusText, hdrs, respOk status⟩
        let result :=
          match rc.onResponse with
          | none => result0
          | some f => (f result0).getD result0
        .done (.ok result) [Event.jsonCall attempt]
      | .error je => catchStep rc ctx attempt (.js je) timerFiredBody [Event.jsonCall attempt]

/-- The engine's `while (attempt <= maxRetries)` loop (src/fetchiva.ts
lines 101-212) as fuel recursion: `fuel` is the number of loop iterations
still permitted (`maxRetries + 1 - attempt`).  At `fuel = 0` the loop has
exited, reaching the trailing code of the function (lines 214-217): a
final `onError` invocation when a `lastError` exists, then `throw
lastError`.  The events of the remaining run are returned alongside the
result. -/
def runFrom {δ : Type} (rc : ResolvedCall δ) (transport : Nat → AttemptOutcome δ) :
    Nat → Nat → Option EngineError → RunResult δ × List Event
  | _, 0, lastError =>
    match lastError with
    | some e => (.err e, if rc.onError then [Event.onErrorCall e] else [])
    | none => (.errNone, [])
  | attempt, fuel + 1, lastError =>
    let ctx := buildCtx rc
    match attemptStep rc ctx attempt (transport attempt) with
    | .retryKeep pre =>
      let next := runFrom rc transport (attempt + 1) fuel lastError
      (next.1, Event.dispatch attempt ctx :: (pre ++ next.2))
    | .retrySet e pre =>
      let next := runFrom rc transport (attempt + 1) fuel (some e)
      (next.1, Event.dispatch attempt ctx :: (pre ++ next.2))
    | .done r evs => (r, Event.dispatch attempt ctx :: evs)

/-- `fetchiva` (src/fetchiva.ts lines 84-218) for one logical call, given
the configuration value read at entry: resolve the call, then run the
loop starting at `attempt = 0` with `maxRetries + 1` permitted
iterations. -/
def fetchivaRun {δ : Type} (cfg : FetchivaConfig δ) (path : String)
    (opts : FetchivaRequestOptions) (transport : Nat → AttemptOutcome δ) :
    RunResult δ × List Event :=
  let rc := resolveCall cfg path opts
  runFrom rc transport 0 (rc.maxRetries + 1) none

/-- `fetchiva` under an environment that may replace the global
configuration while the call is suspended: `cfgAt n` is the configuration
value the store holds at the call's n-th suspension point (`cfgAt 0` is
the value at entry).  Every `getConfig()` read of the source (lines 50,
59, 74, 79 and 88 of src/fetchiva.ts) executes in the synchronous prelude
before the first `await` — an async function runs synchronously up to its
first suspension — so each read observes `cfgAt 0`. -/
def fetchivaSched {δ : Type} (cfgAt : Nat → FetchivaConfig δ) (path : String)
    (opts : FetchivaRequestOptions) (transport : Nat → AttemptOutcome δ) :
    RunResult δ × List Event :=
  fetchivaRun (cfgAt 0) path opts transport

/-- `configureFetchiva` (src/config.ts lines 5-7): the global value is
replaced by a shallow copy of the argument — no merging with the previous
value. -/
def configureFetchiva {δ : Type} (config : FetchivaConfig δ)
    (_old : FetchivaConfig δ) : FetchivaConfig δ :=
  config

/-- The configuration store after a sequence of `configureFetchiva`
calls, starting from `init`. -/
def applyConfigSeq {δ : Type} (init : FetchivaConfig δ)
    (calls : List (FetchivaConfig δ)) : FetchivaConfig δ :=
  calls.foldl (fun g c => configureFetchiva c g) init

/-- Dispatch-event test. -/
def isDispatchEv : Event → Bool
  | .dispatch .. => true
  | _ => false

/-- Number of transport dispatches recorded in an event list. -/
def dispatchCount (evs : List Event) : Nat := (evs.filter isDispatchEv).length

/-- onError-invocation test. -/
def isOnErrorEv : Event → Bool
  | .onErrorCall _ => true
  | _ => false

/-- Number of `onError` hook invocations recorded in an event list. -/
def onErrorCount (evs : List Event) : Nat := (evs.filter isOnErrorEv).length

/-! ## General lemmas about the engine -/

/-- The events a loop-body decision contributes besides the dispatch
event itself. -/
def stepEvents {δ : Type} : StepRes δ → List Event
  | .retryKeep pre => pre
  | .retrySet _ pre => pre
  | .done _ evs => evs

theorem dispatchCount_append (a b : List Event) :
    dispatchCount (a ++ b) = dispatchCount a + dispatchCount b := by
  simp [dispatchCount, List.filter_append]

theorem dispatchCount_cons_dispatch (a : Nat) (c : ReqCtx) (l : List Event) :
    dispatchCount (Event.dispatch a c :: l) = dispatchCount l + 1 := by
  simp [dispatchCount, List.filter_cons, isDispatchEv, Nat.add_comm]

theorem dispatchCount_onError_ite (b : Bool) (e : EngineError) :
    dispatchCount (if b then [Event.onErrorCall e] else []) = 0 := by
  cases b <;> simp [dispatchCount, isDispatchEv]

theorem catchWith_events {δ : Type} (rc : ResolvedCall δ) (atmpt : Nat)
    (e : EngineError) (pre : List Event) :
    dispatchCount (stepEvents (catchWith rc atmpt e pre)) = dispatchCount pre := by
  unfold catchWith
  by_cases h : (isRetryableError e && decide (atmpt < rc.maxRetries)) = true
  · simp [h, stepEvents]
  · simp [h, stepEvents, dispatchCount_append, dispatchCount_onError_ite]

/-- The `catch` block emits no dispatch events beyond those already in
`pre`. -/
theorem catchStep_events {δ : Type} (rc : ResolvedCall δ) (ctx : ReqCtx) (atmpt : Nat)
    (t : Thrown) (cA : Bool) (pre : List Event) :
    dispatchCount (stepEvents (catchStep rc ctx atmpt t cA pre)) = dispatchCount pre := by
  unfold catchStep
  exact catchWith_events ..

/-- A loop-body decision emits no dispatch events of its own (the single
dispatch event per iteration is emitted by `runFrom`). -/
theorem attemptStep_events {δ : Type} (rc : ResolvedCall δ) (ctx : ReqCtx) (atmpt : Nat)
    (oc : AttemptOutcome δ) :
    dispatchCount (stepEvents (attemptStep rc ctx atmpt oc)) = 0 := by
  have hc : ∀ t cA pre, dispatchCount pre = 0 →
      dispatchCount (stepEvents (catchStep rc ctx atmpt t cA pre)) = 0 := by
    intro t cA pre h
    rw [catchStep_events, h]
  cases oc with
  | reject e tf => exact hc _ _ _ rfl
  | resp s st hd jr tb =>
    simp only [attemptStep]
    by_cases h1 : (isRetryableStatus s && decide (atmpt < rc.maxRetries)) = true
    · rw [if_pos h1]; rfl
    · rw [if_neg h1]
      by_cases h2 : (!respOk s) = true
      · rw [if_pos h2]
        exact hc _ _ _ (dispatchCount_onError_ite rc.onError _)
      · rw [if_neg h2]
        cases jr with
        | ok d => rfl
        | error je => exact hc _ _ _ rfl

theorem dispatch_not_mem_of_count_zero {l : List Event} (h : dispatchCount l = 0)
    (a : Nat) (c : ReqCtx) : Event.dispatch a c ∉ l := by
  intro hm
  have hf : Event.dispatch a c ∈ l.filter isDispatchEv := List.mem_filter.mpr ⟨hm, rfl⟩
  have h' : l.filter isDispatchEv = [] := List.length_eq_zero.mp h
  rw [h'] at hf
  exact (List.not_mem_nil _) hf

/-- Every dispatch event of a run carries the context built by
`buildCtx` (the engine rebuilds the same context on every attempt). -/
theorem runFrom_dispatch_ctx {δ : Type} (rc : ResolvedCall δ) (tr : Nat → AttemptOutcome δ) :
    ∀ fuel atmpt le a c,
      Event.dispatch a c ∈ (runFrom rc tr atmpt fuel le).2 → c = buildCtx rc := by
  intro fuel
  induction fuel with
  | zero =>
    intro atmpt le a c hm
    unfold runFrom at hm
    cases le with
    | none => simp at hm
    | some e =>
      cases h : rc.onError <;> rw [h] at hm <;> simp at hm
  | succ f ih =>
    intro atmpt le a c hm
    simp only [runFrom] at hm
    cases hstep : attemptStep rc (buildCtx rc) atmpt (tr atmpt) with
    | retryKeep pre =>
      rw [hstep] at hm
      rcases List.mem_cons.mp hm with hc | hc
      · cases hc; rfl
      · rcases List.mem_append.mp hc with hp | hn
        · have h0 : dispatchCount pre = 0 := by
            have := attemptStep_events rc (buildCtx rc) atmpt (tr atmpt)
            rw [hstep] at this
            exact this
          exact absurd hp (dispatch_not_mem_of_count_zero h0 a c)
        · exact ih (atmpt + 1) le a c hn
    | retrySet e pre =>
      rw [hstep] at hm
      rcases List.mem_cons.mp hm with hc | hc
      · cases hc; rfl
      · rcases List.mem_append.mp hc with hp | hn
        · have h0 : dispatchCount pre = 0 := by
            have := attemptStep_events rc (buildCtx rc) atmpt (tr atmpt)
            rw [hstep] at this
            exact this
          exact absurd hp (dispatch_not_mem_of_count_zero h0 a c)
        · exact ih (atmpt + 1) (some e) a c hn
    | done r evs =>
      rw [hstep] at hm
      rcases List.mem_cons.mp hm with hc | hc
      · cases hc; rfl
      · have h0 : dispatchCount evs = 0 := by
          have := attemptStep_events rc (buildCtx rc) atmpt (tr atmpt)
          rw [hstep] at this
          exact this
        exact absurd hc (dispatch_not_mem_of_count_zero h0 a c)

/-- No run dispatches more often than its fuel allows. -/
theorem runFrom_dispatch_le {δ : Type} (rc : ResolvedCall δ) (tr : Nat → AttemptOutcome δ) :
    ∀ fuel atmpt le, dispatchCount (runFrom rc tr atmpt fuel le).2 ≤ fuel := by
  intro fuel
  induction fuel with
  | zero =>
    intro atmpt le
    unfold runFrom
    cases le with
    | none => simp [dispatchCount]
    | some e => rw [dispatchCount_onError_ite]
  | succ f ih =>
    intro atmpt le
    simp only [runFrom]
    cases hstep : attemptStep rc (buildCtx rc) atmpt (tr atmpt) with
    | retryKeep pre =>
      have h0 : dispatchCount pre = 0 := by
        have := attemptStep_events rc (buildCtx rc) atmpt (tr atmpt)
        rw [hstep] at this; exact this
      simp only [dispatchCount_cons_dispatch, dispatchCount_append, h0]
      have := ih (atmpt + 1) le
      omega
    | retrySet e pre =>
      have h0 : dispatchCount pre = 0 := by
        have := attemptStep_events rc (buildCtx rc) atmpt (tr atmpt)
        rw [hstep] at this; exact this
      simp only [dispatchCount_cons_dispatch, dispatchCount_append, h0]
      have := ih (atmpt + 1) (some e)
      omega
    | done r evs =>
      have h0 : dispatchCount evs = 0 := by
        have := attemptStep_events rc (buildCtx rc) atmpt (tr atmpt)
        rw [hstep] at this; exact this
      simp only [dispatchCount_cons_dispatch, h0]
      omega

/-! ## Claim theorems -/

/-- C1: the claim says the `onError` hook runs exactly once per terminally
failing call.  The code invokes it twice for every http-kind terminal
failure: once in the non-ok status branch (src/fetchiva.ts lines 147-149)
and once more in the terminal path of the `catch` block (lines 203-205),
because the `throw httpError` at line 150 is caught by the engine's own
`catch` at line 171.  Concretely: `onError` configured, a single 404
response, zero retries — `onError` fires twice with the same `HttpError`. -/
theorem onError_double_invocation_http :
    let tr : Nat → AttemptOutcome Nat := fun _ => .resp 404 "Not Found" [] (.error ⟨"X", "x"⟩) false
    let run := fetchivaRun (δ := Nat) { onError := true } "/api" {} tr
    let h : HttpData := ⟨404, "Not Found", "/api", none⟩
    onErrorCount run.2 = 2 ∧
      run.2 = [.dispatch 0 ⟨"/api", ⟨none, [], ⟨false, false⟩, none⟩⟩,
               .onErrorCall (.http h), .onErrorCall (.http h)] ∧
      run.1 = .err (.http h) :=
  ⟨rfl, rfl, rfl⟩

/-- C2 counterexample: with resolved `retries = 0` and a transport that
returns status 500 on every attempt but with `statusText = "fetch"`, the
terminal error is network-kind, not http-kind: the engine's own
`HttpError` (message `HTTP 500: fetch`) is re-examined by its own `catch`
block, where `isNetworkLikeError` matches the `"fetch"` substring and
wraps it in a `NetworkError`. -/
theorem retry500_terminal_kind_counterexample :
    let tr : Nat → AttemptOutcome Nat := fun _ => .resp 500 "fetch" [] (.error ⟨"X", "x"⟩) false
    let run := fetchivaRun (δ := Nat) {} "/api" { retry := some ⟨some 0, some 0⟩ } tr
    dispatchCount run.2 = 1 ∧
      run.1 = .err (.networkE "HTTP 500: fetch"
        (.httpE ⟨500, "fetch", "/api", none⟩) "/api" none) ∧
      (RunResult.terminalError run.1).map EngineError.kind = some (some "network") :=
  ⟨rfl, rfl, rfl⟩

/-- C3 counterexample: with both a timeout (5000 ms) and a caller-supplied
cancellation signal, the signal handed to the transport is the timeout
controller's signal alone (src/fetchiva.ts line 115:
`controller?.signal ?? options.signal`), so the caller's signal cannot
abort the in-flight attempt — the two sources are not combined. -/
theorem signal_not_combined_counterexample :
    let tr : Nat → AttemptOutcome Nat := fun _ => .resp 200 "OK" [] (.ok 1) false
    let run := fetchivaRun (δ := Nat) { timeout := some 5000 } "/api" { callerSignal := true } tr
    run.2 = [.dispatch 0 ⟨"/api", ⟨none, [], ⟨true, false⟩, none⟩⟩, .jsonCall 0] ∧
      (dispatchSignal true true).caller = false :=
  ⟨rfl, rfl⟩

/-- C4 counterexample: with configured `retries = 1`, a transport that
always returns status 400 with `statusText = "fetch"` produces 2 dispatch
attempts, not 1: the engine's thrown `HttpError` (message
`HTTP 400: fetch`) is re-classified as a `NetworkError` by its own
`catch` block and retried. -/
theorem status400_retried_counterexample :
    let tr : Nat → AttemptOutcome Nat := fun _ => .resp 400 "fetch" [] (.error ⟨"X", "x"⟩) false
    let run := fetchivaRun (δ := Nat) {} "/api" { retry := some ⟨some 1, some 0⟩ } tr
    dispatchCount run.2 = 2 ∧
      run.1 = .err (.networkE "HTTP 400: fetch"
        (.httpE ⟨400, "fetch", "/api", none⟩) "/api" none) :=
  ⟨rfl, rfl⟩

/-- C6 counterexample: a failure that classification leaves raw (an
`AbortError` from a caller-supplied signal, no timeout configured, so it
is neither timeout- nor network-kind) is retried rather than terminal:
`isRetryableError` (src/fetchiva.ts line 26) treats any error named
`AbortError` as retryable.  With `retries = 1` the call dispatches twice
and even succeeds. -/
theorem raw_abort_retried_counterexample :
    let abortE : JsError := ⟨"AbortError", "The operation was aborted"⟩
    let tr : Nat → AttemptOutcome Nat := fun i =>
      if i = 0 then .reject abortE false else .resp 200 "OK" [] (.ok 7) false
    let run := fetchivaRun (δ := Nat) {} "/a"
      { callerSignal := true, retry := some ⟨some 1, some 10⟩ } tr
    classifyThrown (.js abortE) false false 0 "/a" none = .rawE abortE ∧
      dispatchCount run.2 = 2 ∧ run.1 = .ok ⟨7, 200, "OK", [], true⟩ :=
  ⟨rfl, rfl, rfl⟩

/-- C7 counterexample: at base `B = ""` and path `P = "x"` the claimed
equalities fail: `resolve("/", "x") = "/x"` (the base `"/"` is truthy)
while `resolve("", "x") = "x"` (an empty base is falsy and the path is
returned verbatim, src/fetchiva.ts lines 61-63). -/
theorem url_idempotence_counterexample :
    ¬ (resolve ("" ++ "/") "x" = resolve "" "x" ∧
       resolve "" "x" = resolve "" ("/" ++ stripLeadingSlash "x")) := by
  decide

/-- C10 counterexample: an `onResponse` hook returning a replacement
response is used verbatim (src/fetchiva.ts lines 163-168), so the data
field of a successful `fetchiva` call need not be the JSON-parse of the
body: here the body parses to `1` but the call returns `99`. -/
theorem parsed_data_hook_counterexample :
    let tr : Nat → AttemptOutcome Nat := fun _ => .resp 200 "OK" [] (.ok 1) false
    let run := fetchivaRun (δ := Nat)
      { onResponse := some (fun r => some { r with data := 99 }) } "/a" {} tr
    run.1 = .ok ⟨99, 200, "OK", [], true⟩ ∧ RunResult.okData run.1 ≠ some 1 :=
  ⟨rfl, by decide⟩

/-- Helper for C2: against a transport that answers status 500 on every
attempt, a run from `atmpt` with the matching remaining fuel dispatches
exactly `fuel` more times, and — when the engine-built message
`HTTP 500: <statusText>` is not network-like — terminates with the
http-kind error carrying status 500. -/
theorem runFrom_resp500 {δ : Type} (rc : ResolvedCall δ) (st : String)
    (hd : Nat → List (String × String)) (js : Nat → Except JsError δ) (tb : Nat → Bool) :
    ∀ fuel atmpt le, atmpt + fuel = rc.maxRetries + 1 →
      dispatchCount (runFrom rc (fun i => AttemptOutcome.resp 500 st (hd i) (js i) (tb i))
          atmpt fuel le).2 = fuel ∧
      (isNetworkLikeErrorB "HttpError" ("HTTP " ++ toString (500 : Nat) ++ ": " ++ st) = false →
        0 < fuel →
        (runFrom rc (fun i => AttemptOutcome.resp 500 st (hd i) (js i) (tb i)) atmpt fuel le).1
          = .err (.http ⟨500, st, (buildCtx rc).url, (buildCtx rc).options.method⟩)) := by
  intro fuel
  induction fuel with
  | zero =>
    intro atmpt le _
    refine ⟨?_, fun _ h0 => absurd h0 (by omega)⟩
    unfold runFrom
    cases le with
    | none => rfl
    | some e => exact dispatchCount_onError_ite rc.onError e
  | succ f ih =>
    intro atmpt le hinv
    by_cases hlt : atmpt < rc.maxRetries
    · have hstep : attemptStep rc (buildCtx rc) atmpt
          ((fun i => AttemptOutcome.resp 500 st (hd i) (js i) (tb i)) atmpt) = .retryKeep [] := by
        have hc : (isRetryableStatus 500 && decide (atmpt < rc.maxRetries)) = true := by
          rw [show isRetryableStatus 500 = true from rfl, Bool.true_and, decide_eq_true_eq]
          exact hlt
        simp only [attemptStep, hc, if_true]
      have ihr := ih (atmpt + 1) le (by omega)
      constructor
      · simp only [runFrom, hstep]
        rw [List.nil_append, dispatchCount_cons_dispatch, ihr.1]
      · intro hn _
        simp only [runFrom, hstep]
        exact ihr.2 hn (by omega)
    · have hf0 : f = 0 := by omega
      subst hf0
      have hdec : decide (atmpt < rc.maxRetries) = false := decide_eq_false hlt
      have hstep : attemptStep rc (buildCtx rc) atmpt
          ((fun i => AttemptOutcome.resp 500 st (hd i) (js i) (tb i)) atmpt) =
          StepRes.done
            (.err (classifyThrown
              (.httpE ⟨500, st, (buildCtx rc).url, (buildCtx rc).options.method⟩)
              rc.timeoutMs.isSome false (rc.timeoutMs.getD 0)
              (buildCtx rc).url (buildCtx rc).options.method))
            ((if rc.onError then [Event.onErrorCall (.http ⟨500, st, (buildCtx rc).url,
                (buildCtx rc).options.method⟩)] else []) ++
              (if rc.onError then [Event.onErrorCall (classifyThrown
                (.httpE ⟨500, st, (buildCtx rc).url, (buildCtx rc).options.method⟩)
                rc.timeoutMs.isSome false (rc.timeoutMs.getD 0)
                (buildCtx rc).url (buildCtx rc).options.method)] else [])) := by
        have hc : (isRetryableStatus 500 && decide (atmpt < rc.maxRetries)) = false := by
          rw [hdec, Bool.and_false]
        have hcw : (isRetryableError (classifyThrown
            (.httpE ⟨500, st, (buildCtx rc).url, (buildCtx rc).options.method⟩)
            rc.timeoutMs.isSome false (rc.timeoutMs.getD 0)
            (buildCtx rc).url (buildCtx rc).options.method)
            && decide (atmpt < rc.maxRetries)) = false := by
          rw [hdec, Bool.and_false]
        simp only [attemptStep, hc, Bool.false_eq_true, if_false,
          show respOk 500 = false from rfl, Bool.not_false, if_true,
          catchStep, catchWith, hcw]
      constructor
      · simp only [runFrom, hstep]
        rw [dispatchCount_cons_dispatch, dispatchCount_append,
          dispatchCount_onError_ite, dispatchCount_onError_ite]
      · intro hn _
        have hnm : ("HttpError" == "AbortError") = false := by decide
        have hclass : classifyThrown
            (.httpE ⟨500, st, (buildCtx rc).url, (buildCtx rc).options.method⟩)
            rc.timeoutMs.isSome false (rc.timeoutMs.getD 0)
            (buildCtx rc).url (buildCtx rc).options.method
            = .http ⟨500, st, (buildCtx rc).url, (buildCtx rc).options.method⟩ := by
          simp only [classifyThrown, Thrown.errName, Thrown.errMessage, isTimeoutAbortB,
            Bool.and_false, hnm, Bool.false_and, Bool.false_eq_true, if_false, hn]
        simp only [runFrom, hstep, hclass]

/-- C2 (amended): against a transport returning status 500 on every
attempt, `fetchiva` performs exactly `maxRetries + 1` dispatch attempts
(whatever the statusText), and no transport behaviour whatsoever makes it
dispatch more than `maxRetries + 1` times; the terminal error is
http-kind carrying status 500 provided the engine-built message
`HTTP 500: <statusText>` is not network-like — when the statusText makes
the message contain `network` or `fetch`, the engine's own `HttpError` is
re-classified as a `NetworkError` by its own `catch` block and the call
terminates with a network-kind error instead (see the counterexample). -/
theorem retry500_bound_and_terminal {δ : Type} (cfg : FetchivaConfig δ) (path : String)
    (opts : FetchivaRequestOptions) (st : String) (hd : Nat → List (String × String))
    (js : Nat → Except JsError δ) (tb : Nat → Bool) :
    dispatchCount (fetchivaRun cfg path opts
        (fun i => AttemptOutcome.resp 500 st (hd i) (js i) (tb i))).2
      = (resolveCall cfg path opts).maxRetries + 1 ∧
    (isNetworkLikeErrorB "HttpError" ("HTTP " ++ toString (500 : Nat) ++ ": " ++ st) = false →
      (fetchivaRun cfg path opts (fun i => AttemptOutcome.resp 500 st (hd i) (js i) (tb i))).1
        = .err (.http ⟨500, st, (buildCtx (resolveCall cfg path opts)).url,
            (buildCtx (resolveCall cfg path opts)).options.method⟩)) ∧
    ∀ tr : Nat → AttemptOutcome δ,
      dispatchCount (fetchivaRun cfg path opts tr).2
        ≤ (resolveCall cfg path opts).maxRetries + 1 := by
  have h := runFrom_resp500 (resolveCall cfg path opts) st hd js tb
    ((resolveCall cfg path opts).maxRetries + 1) 0 none (by omega)
  exact ⟨h.1, fun hn => h.2 hn (by omega),
    fun tr => runFrom_dispatch_le (resolveCall cfg path opts) tr _ 0 none⟩

/-- Witness for C2's amended theorem: configured retries 2, statusText
`Internal Server Error` — 3 dispatch attempts and a terminal http-kind
500 error. -/
theorem retry500_bound_and_terminal_witness :
    isNetworkLikeErrorB "HttpError"
        ("HTTP " ++ toString (500 : Nat) ++ ": " ++ "Internal Server Error") = false ∧
      dispatchCount (fetchivaRun (δ := Nat) {} "/api" { retry := some ⟨some 2, some 0⟩ }
        (fun _ => AttemptOutcome.resp 500 "Internal Server Error" [] (.error ⟨"X", "x"⟩) false)).2
        = 3 ∧
      (fetchivaRun (δ := Nat) {} "/api" { retry := some ⟨some 2, some 0⟩ }
        (fun _ => AttemptOutcome.resp 500 "Internal Server Error" [] (.error ⟨"X", "x"⟩) false)).1
        = .err (.http ⟨500, "Internal Server Error", "/api", none⟩) :=
  ⟨by decide,
    (retry500_bound_and_terminal (δ := Nat) {} "/api" { retry := some ⟨some 2, some 0⟩ }
      "Internal Server Error" (fun _ => []) (fun _ => .error ⟨"X", "x"⟩) (fun _ => false)).1,
    (retry500_bound_and_terminal (δ := Nat) {} "/api" { retry := some ⟨some 2, some 0⟩ }
      "Internal Server Error" (fun _ => []) (fun _ => .error ⟨"X", "x"⟩) (fun _ => false)).2.1
      (by decide)⟩

/-- Helper for C5: a transport whose every attempt is aborted by the
attempt's own timeout timer (an `AbortError` with the controller's
aborted flag set) drives the run to a terminal timeout-kind error. -/
theorem runFrom_reject_abort {δ : Type} (rc : ResolvedCall δ) (T : Nat) (msgs : Nat → String)
    (hT : rc.timeoutMs = some T) :
    ∀ fuel atmpt le, atmpt + fuel = rc.maxRetries + 1 → 0 < fuel →
      (runFrom rc (fun i => AttemptOutcome.reject ⟨"AbortError", msgs i⟩ true) atmpt fuel le).1
        = .err (.timeoutE ("Request timeout after " ++ toString T ++ "ms")
            (.js ⟨"AbortError", msgs rc.maxRetries⟩)
            (buildCtx rc).url (buildCtx rc).options.method) := by
  intro fuel
  induction fuel with
  | zero => intro _ _ _ h0; exact absurd h0 (by omega)
  | succ f ih =>
    intro atmpt le hinv _
    have ht : isTimeoutAbortB (Thrown.errName (.js ⟨"AbortError", msgs atmpt⟩))
        rc.timeoutMs.isSome true = true := by
      rw [hT]; rfl
    have hclass : classifyThrown (.js ⟨"AbortError", msgs atmpt⟩) rc.timeoutMs.isSome true
        (rc.timeoutMs.getD 0) (buildCtx rc).url (buildCtx rc).options.method
        = .timeoutE ("Request timeout after " ++ toString T ++ "ms")
            (.js ⟨"AbortError", msgs atmpt⟩) (buildCtx rc).url (buildCtx rc).options.method := by
      simp only [classifyThrown, ht, if_true, hT]
      rfl
    by_cases hlt : atmpt < rc.maxRetries
    · have hstep : attemptStep rc (buildCtx rc) atmpt
          ((fun i => AttemptOutcome.reject ⟨"AbortError", msgs i⟩ true) atmpt) =
          .retrySet (.timeoutE ("Request timeout after " ++ toString T ++ "ms")
            (.js ⟨"AbortError", msgs atmpt⟩) (buildCtx rc).url (buildCtx rc).options.method)
            [] := by
        have hc : (isRetryableError (.timeoutE ("Request timeout after " ++ toString T ++ "ms")
            (.js ⟨"AbortError", msgs atmpt⟩) (buildCtx rc).url (buildCtx rc).options.method)
            && decide (atmpt < rc.maxRetries)) = true := by
          rw [show isRetryableError (.timeoutE ("Request timeout after " ++ toString T ++ "ms")
            (.js ⟨"AbortError", msgs atmpt⟩) (buildCtx rc).url (buildCtx rc).options.method)
            = true from rfl, Bool.true_and, decide_eq_true_eq]
          exact hlt
        simp only [attemptStep, catchStep, hclass, catchWith, hc, if_true]
      simp only [runFrom, hstep]
      exact ih (atmpt + 1) _ (by omega) (by omega)
    · have ha : atmpt = rc.maxRetries := by omega
      subst ha
      have hd2 : decide (rc.maxRetries < rc.maxRetries) = false := by simp
      have hstep : attemptStep rc (buildCtx rc) rc.maxRetries
          ((fun i => AttemptOutcome.reject ⟨"AbortError", msgs i⟩ true) rc.maxRetries) =
          .done (.err (.timeoutE ("Request timeout after " ++ toString T ++ "ms")
              (.js ⟨"AbortError", msgs rc.maxRetries⟩) (buildCtx rc).url
              (buildCtx rc).options.method))
            ([] ++ (if rc.onError then
              [Event.onErrorCall (.timeoutE ("Request timeout after " ++ toString T ++ "ms")
                (.js ⟨"AbortError", msgs rc.maxRetries⟩) (buildCtx rc).url
                (buildCtx rc).options.method)] else [])) := by
        simp only [attemptStep, catchStep, hclass, catchWith, hd2, Bool.and_false,
          Bool.false_eq_true, if_false]
      simp only [runFrom, hstep]

/-- C5: when every dispatch attempt fails because the attempt's own
timeout timer fired (timeout resolved to `T`, transport never resolves,
so each attempt rejects with an `AbortError` while the engine's
controller is aborted), the call terminates with a timeout-kind
classified error — not a network-kind one; and an abort for which the
attempt's own controller did not fire (no timeout configured, or the
timer has not aborted) is never classified as timeout-kind. -/
theorem timeout_abort_classification {δ : Type} (cfg : FetchivaConfig δ) (path : String)
    (opts : FetchivaRequestOptions) (T : Nat) (msgs : Nat → String)
    (hT : (resolveCall cfg path opts).timeoutMs = some T) :
    (fetchivaRun cfg path opts (fun i => AttemptOutcome.reject ⟨"AbortError", msgs i⟩ true)).1
        = .err (.timeoutE ("Request timeout after " ++ toString T ++ "ms")
            (.js ⟨"AbortError", msgs (resolveCall cfg path opts).maxRetries⟩)
            (buildCtx (resolveCall cfg path opts)).url
            (buildCtx (resolveCall cfg path opts)).options.method) ∧
      ∀ (t : Thrown) (cE cA : Bool) (tm : Nat) (u : String) (m : Option String),
        (cE && cA) = false →
        EngineError.kind (classifyThrown t cE cA tm u m) ≠ some "timeout" := by
  constructor
  · exact runFrom_reject_abort (resolveCall cfg path opts) T msgs hT _ 0 none
      (by omega) (by omega)
  · intro t cE cA tm u m hno
    have hta : isTimeoutAbortB t.errName cE cA = false := by
      rw [isTimeoutAbortB, hno, Bool.and_false]
    simp only [classifyThrown, hta, Bool.false_eq_true, if_false]
    by_cases hnl : isNetworkLikeErrorB t.errName t.errMessage = true
    · simp only [hnl, if_true, EngineError.kind]
      intro hcon
      exact absurd (Option.some.inj hcon) (by decide)
    · have hnl' : isNetworkLikeErrorB t.errName t.errMessage = false := by
        simpa using hnl
      simp only [hnl', Bool.false_eq_true, if_false]
      cases t with
      | js e => simp [EngineError.kind]
      | httpE h =>
        simp only [EngineError.kind]
        intro hcon
        exact absurd (Option.some.inj hcon) (by decide)

/-- Witness for C5: timeout 50 ms, transport that never resolves — the
call fails with the timeout-kind error, after the full message is built. -/
theorem timeout_abort_classification_witness :
    (resolveCall ({ timeout := some 50 } : FetchivaConfig Nat) "/a" {}).timeoutMs = some 50 ∧
      (fetchivaRun (δ := Nat) { timeout := some 50 } "/a" {}
        (fun _ => AttemptOutcome.reject ⟨"AbortError", "The operation was aborted"⟩ true)).1
        = .err (.timeoutE "Request timeout after 50ms"
            (.js ⟨"AbortError", "The operation was aborted"⟩) "/a" none) :=
  ⟨rfl, (timeout_abort_classification (δ := Nat) { timeout := some 50 } "/a" {} 50
      (fun _ => "The operation was aborted") rfl).1⟩

/-- C3 (amended): the engine does not combine the two abort sources.  For
any call (with no `onRequest` hook, which could arbitrarily rewrite the
context), every transport dispatch carries the signal
`dispatchSignal timeoutConfigured callerSignal`: when a timeout is
resolved the dispatched signal is the engine's timer signal alone — the
caller-supplied signal is dropped and cannot abort the attempt — and only
when no timeout is resolved is the caller's signal passed through. -/
theorem signal_override_semantics {δ : Type} (cfg : FetchivaConfig δ) (path : String)
    (opts : FetchivaRequestOptions) (tr : Nat → AttemptOutcome δ)
    (hreq : cfg.onRequest = none) :
    ∀ a c, Event.dispatch a c ∈ (fetchivaRun cfg path opts tr).2 →
      c.options.signal =
        dispatchSignal (resolveCall cfg path opts).timeoutMs.isSome opts.callerSignal ∧
      ((resolveCall cfg path opts).timeoutMs.isSome = true →
        c.options.signal = ⟨true, false⟩) := by
  intro a c hm
  have hctx : c = buildCtx (resolveCall cfg path opts) :=
    runFrom_dispatch_ctx (resolveCall cfg path opts) tr _ 0 none a c hm
  have hb : buildCtx (resolveCall cfg path opts) =
      ⟨(resolveCall cfg path opts).url,
        ⟨(resolveCall cfg path opts).method, (resolveCall cfg path opts).headers,
          dispatchSignal (resolveCall cfg path opts).timeoutMs.isSome
            (resolveCall cfg path opts).callerSignal,
          (resolveCall cfg path opts).body⟩⟩ := by
    unfold buildCtx
    rw [show (resolveCall cfg path opts).onRequest = none from hreq]
  rw [hctx, hb]
  refine ⟨rfl, fun hT => ?_⟩
  show dispatchSignal (resolveCall cfg path opts).timeoutMs.isSome
    (resolveCall cfg path opts).callerSignal = ⟨true, false⟩
  rw [hT]
  rfl

/-- Witness for C3's amended theorem: with `timeout = 5000` and a
caller-supplied signal, the dispatched context's signal is the timer's
alone. -/
theorem signal_override_semantics_witness :
    ({ timeout := some 5000 } : FetchivaConfig Nat).onRequest = none ∧
      (⟨"/api", ⟨none, [], ⟨true, false⟩, none⟩⟩ : ReqCtx).options.signal = ⟨true, false⟩ :=
  ⟨rfl,
    (signal_override_semantics ({ timeout := some 5000 } : FetchivaConfig Nat) "/api"
        { callerSignal := true } (fun _ => .resp 200 "OK" [] (.ok 1) false) rfl 0
        ⟨"/api", ⟨none, [], ⟨true, false⟩, none⟩⟩ (by decide)).2 rfl⟩

/-- C4 (amended): a transport response with a non-success status outside
the retryable 500-599 band is terminal after exactly 1 dispatch attempt
with an http-kind error carrying that status, regardless of the retry
budget — provided the message `HTTP <status>: <statusText>` which the
engine builds into its thrown `HttpError` does not itself look
network-like (contain `network` or `fetch`), since such an `HttpError`
is re-classified as a `NetworkError` by the engine's own `catch` block
and retried (see the counterexample).  Status-based retry itself fires
exactly for statuses 500-599. -/
theorem nonretryable_status_single_attempt {δ : Type} (cfg : FetchivaConfig δ)
    (path : String) (opts : FetchivaRequestOptions) (s : Nat) (st : String)
    (hd0 : List (String × String)) (js0 : Except JsError δ) (tb0 : Bool)
    (tr : Nat → AttemptOutcome δ) (h0 : tr 0 = .resp s st hd0 js0 tb0)
    (hok : respOk s = false) (hrs : isRetryableStatus s = false)
    (hn : isNetworkLikeErrorB "HttpError" ("HTTP " ++ toString s ++ ": " ++ st) = false) :
    dispatchCount (fetchivaRun cfg path opts tr).2 = 1 ∧
      (fetchivaRun cfg path opts tr).1 =
        .err (.http ⟨s, st, (buildCtx (resolveCall cfg path opts)).url,
          (buildCtx (resolveCall cfg path opts)).options.method⟩) ∧
      ∀ s' : Nat, isRetryableStatus s' = true ↔ (500 ≤ s' ∧ s' ≤ 599) := by
  have hstep : attemptStep (resolveCall cfg path opts) (buildCtx (resolveCall cfg path opts))
      0 (tr 0) =
      StepRes.done
        (.err (.http ⟨s, st, (buildCtx (resolveCall cfg path opts)).url,
          (buildCtx (resolveCall cfg path opts)).options.method⟩))
        ((if (resolveCall cfg path opts).onError then
            [Event.onErrorCall (.http ⟨s, st, (buildCtx (resolveCall cfg path opts)).url,
              (buildCtx (resolveCall cfg path opts)).options.method⟩)] else []) ++
          (if (resolveCall cfg path opts).onError then
            [Event.onErrorCall (.http ⟨s, st, (buildCtx (resolveCall cfg path opts)).url,
              (buildCtx (resolveCall cfg path opts)).options.method⟩)] else [])) := by
    rw [h0]
    have hrs' : (decide (500 ≤ s) && decide (s < 600)) = false := hrs
    have hnm : ("HttpError" == "AbortError") = false := by decide
    simp only [attemptStep, hrs, Bool.false_and, Bool.false_eq_true, if_false,
      hok, Bool.not_false, if_true, catchStep, classifyThrown, Thrown.errName,
      Thrown.errMessage, isTimeoutAbortB, Bool.and_false, hnm, hn,
      catchWith, isRetryableError, hrs']
  refine ⟨?_, ?_, ?_⟩
  · show dispatchCount (runFrom (resolveCall cfg path opts) tr 0
      ((resolveCall cfg path opts).maxRetries + 1) none).2 = 1
    simp only [runFrom, hstep]
    rw [dispatchCount_cons_dispatch, dispatchCount_append, dispatchCount_onError_ite]
  · show (runFrom (resolveCall cfg path opts) tr 0
      ((resolveCall cfg path opts).maxRetries + 1) none).1 = _
    simp only [runFrom, hstep]
  · intro s'
    rw [isRetryableStatus]
    rw [Bool.and_eq_true, decide_eq_true_eq, decide_eq_true_eq]
    omega

/-- Witness for C4's amended theorem: status 400, statusText
`Bad Request`, configured retries 3 — one attempt, http error 400. -/
theorem nonretryable_status_single_attempt_witness :
    respOk 400 = false ∧ isRetryableStatus 400 = false ∧
      isNetworkLikeErrorB "HttpError" ("HTTP " ++ toString (400 : Nat) ++ ": " ++ "Bad Request")
        = false ∧
      dispatchCount (fetchivaRun (δ := Nat) {} "/api" { retry := some ⟨some 3, some 0⟩ }
        (fun _ => .resp 400 "Bad Request" [] (.error ⟨"X", "x"⟩) false)).2 = 1 :=
  ⟨rfl, rfl, by decide,
    (nonretryable_status_single_attempt (δ := Nat) {} "/api" { retry := some ⟨some 3, some 0⟩ }
      400 "Bad Request" [] (.error ⟨"X", "x"⟩) false
      (fun _ => .resp 400 "Bad Request" [] (.error ⟨"X", "x"⟩) false)
      rfl rfl rfl (by decide)).1⟩

/-- C6 (amended): a dispatch failure whose classification leaves it raw
(neither timeout- nor network-kind) is terminal on its first occurrence
and rethrown as the raw underlying error — provided its `name` is not
`AbortError`; a raw error named `AbortError` (e.g. an abort from a
caller-supplied signal with no timeout configured) is instead treated as
retryable by `isRetryableError` and retried while budget remains, as the
counterexample shows. -/
theorem unclassified_failure_terminal {δ : Type} (cfg : FetchivaConfig δ) (path : String)
    (opts : FetchivaRequestOptions) (e : JsError) (b : Bool)
    (tr : Nat → AttemptOutcome δ) (h0 : tr 0 = .reject e b)
    (hab : (e.name == "AbortError") = false)
    (hnl : isNetworkLikeErrorB e.name e.message = false) :
    (fetchivaRun cfg path opts tr).1 = .err (.rawE e) ∧
      dispatchCount (fetchivaRun cfg path opts tr).2 = 1 := by
  have hretry : isRetryableError (.rawE e) = false := by
    rw [isNetworkLikeErrorB] at hnl
    rw [isRetryableError]
    rcases Bool.or_eq_false_iff.mp hnl with ⟨h1, h4⟩
    rcases Bool.or_eq_false_iff.mp h1 with ⟨h2, h3⟩
    rcases Bool.or_eq_false_iff.mp h2 with ⟨hty, hnw⟩
    rw [hty, hab, hnw, h3]
    rfl
  have hstep : attemptStep (resolveCall cfg path opts) (buildCtx (resolveCall cfg path opts))
      0 (tr 0) =
      StepRes.done (.err (.rawE e))
        ([] ++ (if (resolveCall cfg path opts).onError then
          [Event.onErrorCall (.rawE e)] else [])) := by
    rw [h0]
    simp only [attemptStep, catchStep, classifyThrown, Thrown.errName, Thrown.errMessage,
      isTimeoutAbortB, hab, Bool.false_and, Bool.false_eq_true, if_false, hnl,
      catchWith, hretry]
  constructor
  · show (runFrom (resolveCall cfg path opts) tr 0
      ((resolveCall cfg path opts).maxRetries + 1) none).1 = _
    simp only [runFrom, hstep]
  · show dispatchCount (runFrom (resolveCall cfg path opts) tr 0
      ((resolveCall cfg path opts).maxRetries + 1) none).2 = 1
    simp only [runFrom, hstep]
    rw [dispatchCount_cons_dispatch, List.nil_append, dispatchCount_onError_ite]

/-- Witness for C6's amended theorem: a raw `SyntaxError` (e.g. an
invalid-JSON body) with retry budget 3 is terminal after one dispatch. -/
theorem unclassified_failure_terminal_witness :
    ((⟨"SyntaxError", "Unexpected token"⟩ : JsError).name == "AbortError") = false ∧
      isNetworkLikeErrorB "SyntaxError" "Unexpected token" = false ∧
      (fetchivaRun (δ := Nat) {} "/a" { retry := some ⟨some 3, some 0⟩ }
        (fun _ => .reject ⟨"SyntaxError", "Unexpected token"⟩ false)).1
        = .err (.rawE ⟨"SyntaxError", "Unexpected token"⟩) :=
  ⟨by decide, by decide,
    (unclassified_failure_terminal (δ := Nat) {} "/a" { retry := some ⟨some 3, some 0⟩ }
      ⟨"SyntaxError", "Unexpected token"⟩ false
      (fun _ => .reject ⟨"SyntaxError", "Unexpected token"⟩ false)
      rfl (by decide) (by decide)).1⟩

/-- The `onError`-invocation list contains no body-parse events. -/
theorem jsonCall_not_mem_onError_ite (b : Bool) (e : EngineError) (i : Nat) :
    Event.jsonCall i ∉ (if b then [Event.onErrorCall e] else []) := by
  cases b <;> simp

/-- `catchWith` either retries or fails; it never succeeds. -/
theorem catchWith_cases {δ : Type} (rc : ResolvedCall δ) (a : Nat) (e : EngineError)
    (pre : List Event) :
    catchWith rc a e pre = .retrySet e pre ∨
      catchWith rc a e pre =
        .done (.err e) (pre ++ (if rc.onError then [Event.onErrorCall e] else [])) := by
  unfold catchWith
  by_cases h : (isRetryableError e && decide (a < rc.maxRetries)) = true
  · left; rw [if_pos h]
  · right; rw [if_neg h]

/-- Inversion: a loop body that finishes successfully did so from an
ok-status response whose `json()` read succeeded, and (with no
`onResponse` hook) the returned response is exactly the parsed one. -/
theorem attemptStep_done_ok {δ : Type} (rc : ResolvedCall δ) (ctx : ReqCtx) (a : Nat)
    (oc : AttemptOutcome δ) (r : FetchivaResponse δ) (evs : List Event)
    (hresp : rc.onResponse = none)
    (h : attemptStep rc ctx a oc = .done (.ok r) evs) :
    ∃ s stt hd2 b, oc = .resp s stt hd2 (Except.ok r.data) b ∧ respOk s = true ∧
      r.status = s ∧ r.statusText = stt ∧ r.headers = hd2 ∧ r.ok = true ∧
      evs = [Event.jsonCall a] := by
  cases oc with
  | reject e tf =>
    have h' : catchWith rc a (classifyThrown (.js e) rc.timeoutMs.isSome tf
        (rc.timeoutMs.getD 0) ctx.url ctx.options.method) [] = .done (.ok r) evs := h
    rcases catchWith_cases rc a (classifyThrown (.js e) rc.timeoutMs.isSome tf
        (rc.timeoutMs.getD 0) ctx.url ctx.options.method) [] with hc | hc <;>
      rw [hc] at h' <;> simp at h'
  | resp s stt hd2 jr tb =>
    simp only [attemptStep] at h
    by_cases h1 : (isRetryableStatus s && decide (a < rc.maxRetries)) = true
    · rw [if_pos h1] at h
      simp at h
    · rw [if_neg h1] at h
      by_cases h2 : respOk s = true
      · simp only [h2, Bool.not_true, Bool.false_eq_true, if_false] at h
        cases jr with
        | error je =>
          have h' : catchWith rc a (classifyThrown (.js je) rc.timeoutMs.isSome tb
              (rc.timeoutMs.getD 0) ctx.url ctx.options.method) [Event.jsonCall a]
              = .done (.ok r) evs := h
          rcases catchWith_cases rc a (classifyThrown (.js je) rc.timeoutMs.isSome tb
              (rc.timeoutMs.getD 0) ctx.url ctx.options.method) [Event.jsonCall a] with
            hc | hc <;> rw [hc] at h' <;> simp at h'
        | ok d =>
          simp only [hresp] at h
          have h3 := (StepRes.done.injEq ..).mp h
          have h5 : (⟨d, s, stt, hd2, true⟩ : FetchivaResponse δ) = r :=
            (RunResult.ok.injEq ..).mp h3.1
          subst h5
          exact ⟨s, stt, hd2, tb, rfl, h2, rfl, rfl, rfl, rfl, h3.2.symm⟩
      · have h2' : respOk s = false := by simpa using h2
        simp only [h2', Bool.not_false, if_true] at h
        have h' : catchWith rc a (classifyThrown
            (.httpE ⟨s, stt, ctx.url, ctx.options.method⟩) rc.timeoutMs.isSome false
            (rc.timeoutMs.getD 0) ctx.url ctx.options.method)
            (if rc.onError then [Event.onErrorCall
              (.http ⟨s, stt, ctx.url, ctx.options.method⟩)] else [])
            = .done (.ok r) evs := h
        rcases catchWith_cases rc a (classifyThrown
            (.httpE ⟨s, stt, ctx.url, ctx.options.method⟩) rc.timeoutMs.isSome false
            (rc.timeoutMs.getD 0) ctx.url ctx.options.method)
            (if rc.onError then [Event.onErrorCall
              (.http ⟨s, stt, ctx.url, ctx.options.method⟩)] else []) with
          hc | hc <;> rw [hc] at h' <;> simp at h'

/-- Inversion: a body-parse event can only come from an ok-status
response of the same attempt. -/
theorem attemptStep_jsonCall_mem {δ : Type} (rc : ResolvedCall δ) (ctx : ReqCtx) (a : Nat)
    (oc : AttemptOutcome δ) (i : Nat)
    (h : Event.jsonCall i ∈ stepEvents (attemptStep rc ctx a oc)) :
    i = a ∧ ∃ s stt hd2 jr b, oc = .resp s stt hd2 jr b ∧ respOk s = true := by
  cases oc with
  | reject e tf =>
    have h' : Event.jsonCall i ∈ stepEvents (catchWith rc a (classifyThrown (.js e)
        rc.timeoutMs.isSome tf (rc.timeoutMs.getD 0) ctx.url ctx.options.method) []) := h
    rcases catchWith_cases rc a (classifyThrown (.js e) rc.timeoutMs.isSome tf
        (rc.timeoutMs.getD 0) ctx.url ctx.options.method) [] with hc | hc <;>
      rw [hc] at h'
    · simp [stepEvents] at h'
    · simp only [stepEvents, List.nil_append] at h'
      exact absurd h' (jsonCall_not_mem_onError_ite rc.onError _ i)
  | resp s stt hd2 jr tb =>
    have hgoal : Event.jsonCall i ∈ stepEvents (attemptStep rc ctx a
        (AttemptOutcome.resp s stt hd2 jr tb)) := h
    simp only [attemptStep] at hgoal
    by_cases h1 : (isRetryableStatus s && decide (a < rc.maxRetries)) = true
    · rw [if_pos h1] at hgoal
      simp [stepEvents] at hgoal
    · rw [if_neg h1] at hgoal
      by_cases h2 : respOk s = true
      · simp only [h2, Bool.not_true, Bool.false_eq_true, if_false] at hgoal
        cases jr with
        | ok d =>
          simp only [stepEvents, List.mem_singleton] at hgoal
          have hi : i = a := by
            have := (Event.jsonCall.injEq ..).mp hgoal
            exact this
          exact ⟨hi, s, stt, hd2, Except.ok d, tb, rfl, h2⟩
        | error je =>
          have h' : Event.jsonCall i ∈ stepEvents (catchWith rc a (classifyThrown (.js je)
              rc.timeoutMs.isSome tb (rc.timeoutMs.getD 0) ctx.url ctx.options.method)
              [Event.jsonCall a]) := hgoal
          have hi : i = a := by
            rcases catchWith_cases rc a (classifyThrown (.js je) rc.timeoutMs.isSome tb
                (rc.timeoutMs.getD 0) ctx.url ctx.options.method) [Event.jsonCall a] with
              hc | hc <;> rw [hc] at h'
            · simp only [stepEvents, List.mem_singleton] at h'
              exact (Event.jsonCall.injEq ..).mp h'
            · simp only [stepEvents] at h'
              rcases List.mem_append.mp h' with hp | hp
              · rw [List.mem_singleton] at hp
                exact (Event.jsonCall.injEq ..).mp hp
              · exact absurd hp (jsonCall_not_mem_onError_ite rc.onError _ i)
          exact ⟨hi, s, stt, hd2, Except.error je, tb, rfl, h2⟩
      · have h2' : respOk s = false := by simpa using h2
        simp only [h2', Bool.not_false, if_true] at hgoal
        have h' : Event.jsonCall i ∈ stepEvents (catchWith rc a (classifyThrown
            (.httpE ⟨s, stt, ctx.url, ctx.options.method⟩) rc.timeoutMs.isSome false
            (rc.timeoutMs.getD 0) ctx.url ctx.options.method)
            (if rc.onError then [Event.onErrorCall
              (.http ⟨s, stt, ctx.url, ctx.options.method⟩)] else [])) := hgoal
        rcases catchWith_cases rc a (classifyThrown
            (.httpE ⟨s, stt, ctx.url, ctx.options.method⟩) rc.timeoutMs.isSome false
            (rc.timeoutMs.getD 0) ctx.url ctx.options.method)
            (if rc.onError then [Event.onErrorCall
              (.http ⟨s, stt, ctx.url, ctx.options.method⟩)] else []) with hc | hc <;>
          rw [hc] at h'
        · simp only [stepEvents] at h'
          exact absurd h' (jsonCall_not_mem_onError_ite rc.onError _ i)
        · simp only [stepEvents] at h'
          rcases List.mem_append.mp h' with hp | hp
          · exact absurd hp (jsonCall_not_mem_onError_ite rc.onError _ i)
          · exact absurd hp (jsonCall_not_mem_onError_ite rc.onError _ i)

/-- Helper for C10: with no `onResponse` hook, a successful run returns
exactly the parsed body of an ok-status attempt, and every body parse of
a run happened on an ok-status response. -/
theorem runFrom_ok_inv {δ : Type} (rc : ResolvedCall δ) (tr : Nat → AttemptOutcome δ)
    (hresp : rc.onResponse = none) :
    ∀ fuel atmpt le,
      (∀ r, (runFrom rc tr atmpt fuel le).1 = .ok r →
        ∃ i hd2 b, tr i = .resp r.status r.statusText hd2 (Except.ok r.data) b ∧
          respOk r.status = true ∧ r.ok = true) ∧
      (∀ i, Event.jsonCall i ∈ (runFrom rc tr atmpt fuel le).2 →
        ∃ s stt hd2 jr b, tr i = .resp s stt hd2 jr b ∧ respOk s = true) := by
  intro fuel
  induction fuel with
  | zero =>
    intro atmpt le
    constructor
    · intro r hr
      unfold runFrom at hr
      cases le with
      | none => simp at hr
      | some e => simp at hr
    · intro i hi
      unfold runFrom at hi
      cases le with
      | none => simp at hi
      | some e => exact absurd hi (jsonCall_not_mem_onError_ite rc.onError e i)
  | succ f ih =>
    intro atmpt le
    constructor
    · intro r hr
      simp only [runFrom] at hr
      cases hstep : attemptStep rc (buildCtx rc) atmpt (tr atmpt) with
      | retryKeep pre =>
        rw [hstep] at hr
        exact (ih (atmpt + 1) le).1 r hr
      | retrySet e pre =>
        rw [hstep] at hr
        exact (ih (atmpt + 1) (some e)).1 r hr
      | done r0 evs =>
        rw [hstep] at hr
        have hstep' : attemptStep rc (buildCtx rc) atmpt (tr atmpt) = .done (.ok r) evs := by
          rw [hstep]
          exact congrArg (fun x => StepRes.done x evs) hr
        rcases attemptStep_done_ok rc (buildCtx rc) atmpt (tr atmpt) r evs hresp hstep' with
          ⟨s, stt, hd2, b, hoc, hok2, hs, hst, _, hok3, _⟩
        refine ⟨atmpt, hd2, b, ?_, ?_, hok3⟩
        · rw [hs, hst]
          exact hoc
        · rw [hs]
          exact hok2
    · intro i hi
      simp only [runFrom] at hi
      cases hstep : attemptStep rc (buildCtx rc) atmpt (tr atmpt) with
      | retryKeep pre =>
        rw [hstep] at hi
        rcases List.mem_cons.mp hi with hc | hc
        · cases hc
        · rcases List.mem_append.mp hc with hp | hn
          · have hmem : Event.jsonCall i ∈ stepEvents (attemptStep rc (buildCtx rc)
                atmpt (tr atmpt)) := by rw [hstep]; exact hp
            rcases attemptStep_jsonCall_mem rc (buildCtx rc) atmpt (tr atmpt) i hmem with
              ⟨hi2, s, stt, hd2, jr, b, hoc, hok2⟩
            exact ⟨s, stt, hd2, jr, b, by rw [hi2]; exact hoc, hok2⟩
          · exact (ih (atmpt + 1) le).2 i hn
      | retrySet e pre =>
        rw [hstep] at hi
        rcases List.mem_cons.mp hi with hc | hc
        · cases hc
        · rcases List.mem_append.mp hc with hp | hn
          · have hmem : Event.jsonCall i ∈ stepEvents (attemptStep rc (buildCtx rc)
                atmpt (tr atmpt)) := by rw [hstep]; exact hp
            rcases attemptStep_jsonCall_mem rc (buildCtx rc) atmpt (tr atmpt) i hmem with
              ⟨hi2, s, stt, hd2, jr, b, hoc, hok2⟩
            exact ⟨s, stt, hd2, jr, b, by rw [hi2]; exact hoc, hok2⟩
          · exact (ih (atmpt + 1) (some e)).2 i hn
      | done r0 evs =>
        rw [hstep] at hi
        rcases List.mem_cons.mp hi with hc | hc
        · cases hc
        · have hmem : Event.jsonCall i ∈ stepEvents (attemptStep rc (buildCtx rc)
              atmpt (tr atmpt)) := by rw [hstep]; exact hc
          rcases attemptStep_jsonCall_mem rc (buildCtx rc) atmpt (tr atmpt) i hmem with
            ⟨hi2, s, stt, hd2, jr, b, hoc, hok2⟩
          exact ⟨s, stt, hd2, jr, b, by rw [hi2]; exact hoc, hok2⟩

/-- C10 (amended): when no `onResponse` hook is configured, a successful
`fetchiva` call returns exactly the JSON-parse of an ok-status response
body (so an ok-status body whose parse fails can never yield a successful
return), and the body of a response is only ever parsed when its status
is ok — a non-ok response's body is never read, and the http-kind error
it produces structurally carries only status, statusText, url and method
(no body data).  With an `onResponse` hook the returned data can be
anything the hook chooses (see the counterexample). -/
theorem success_data_is_parsed_body {δ : Type} (cfg : FetchivaConfig δ) (path : String)
    (opts : FetchivaRequestOptions) (tr : Nat → AttemptOutcome δ)
    (hresp : cfg.onResponse = none) :
    (∀ r, (fetchivaRun cfg path opts tr).1 = .ok r →
      ∃ i hd2 b, tr i = .resp r.status r.statusText hd2 (Except.ok r.data) b ∧
        respOk r.status = true ∧ r.ok = true) ∧
    (∀ i, Event.jsonCall i ∈ (fetchivaRun cfg path opts tr).2 →
      ∃ s stt hd2 jr b, tr i = .resp s stt hd2 jr b ∧ respOk s = true) := by
  have hrc : (resolveCall cfg path opts).onResponse = none := hresp
  exact runFrom_ok_inv (resolveCall cfg path opts) tr hrc
    ((resolveCall cfg path opts).maxRetries + 1) 0 none

/-- Witness for C10's amended theorem: a 200 response with body parsing
to `7` — the returned data is that parse. -/
theorem success_data_is_parsed_body_witness :
    ({} : FetchivaConfig Nat).onResponse = none ∧
      (∃ (i : Nat) (hd2 : List (String × String)) (b : Bool),
        ((fun _ => AttemptOutcome.resp 200 "OK" [] (Except.ok (7 : Nat)) false) :
            Nat → AttemptOutcome Nat) i
          = AttemptOutcome.resp (⟨7, 200, "OK", [], true⟩ : FetchivaResponse Nat).status
            (⟨7, 200, "OK", [], true⟩ : FetchivaResponse Nat).statusText hd2
            (Except.ok (⟨7, 200, "OK", [], true⟩ : FetchivaResponse Nat).data) b ∧
          respOk (⟨7, 200, "OK", [], true⟩ : FetchivaResponse Nat).status = true ∧
          (⟨7, 200, "OK", [], true⟩ : FetchivaResponse Nat).ok = true) :=
  ⟨rfl, (success_data_is_parsed_body ({} : FetchivaConfig Nat) "/a" {}
      (((fun _ => AttemptOutcome.resp 200 "OK" [] (Except.ok (7 : Nat)) false)) :
        Nat → AttemptOutcome Nat) rfl).1
      ⟨7, 200, "OK", [], true⟩ rfl⟩

theorem string_data_append (a b : String) : (a ++ b).data = a.data ++ b.data := rfl

theorem string_eq_of_data {s t : String} (h : s.data = t.data) : s = t :=
  congrArg String.mk h

theorem append_slash_ne_empty (B : String) : (B ++ "/") ≠ "" := by
  intro h
  have hd : B.data ++ ['/'] = [] := congrArg String.data h
  simp at hd

theorem endsWith_append_slash (B : String) : jsEndsWith (B ++ "/") "/" = true := by
  unfold jsEndsWith
  show listLeads ['/'] (B.data ++ ['/']).reverse = true
  rw [List.reverse_append]
  simp [listLeads]

theorem dropLast_append_slash (B : String) : jsDropLast (B ++ "/") = B := by
  apply string_eq_of_data
  show (B.data ++ ['/']).dropLast = B.data
  exact List.dropLast_concat ..

theorem startsWith_slash_append (X : String) : jsStartsWith ("/" ++ X) "/" = true := by
  unfold jsStartsWith
  show listLeads ['/'] ('/' :: X.data) = true
  simp [listLeads]

theorem startsWith_slash_data {P : String} (h : jsStartsWith P "/" = true) :
    ∃ t, P.data = '/' :: t := by
  unfold jsStartsWith at h
  cases hd : P.data with
  | nil =>
    rw [hd] at h
    exact absurd h (by simp [listLeads])
  | cons c t =>
    rw [hd] at h
    simp only [listLeads, Bool.and_eq_true] at h
    have hc : c = '/' := (eq_of_beq h.1).symm
    exact ⟨t, by rw [hc]⟩

/-- Prepending `/` to the slash-stripped path is exactly the engine's
path normalization. -/
theorem norm_slash_strip (P : String) :
    "/" ++ stripLeadingSlash P = (if jsStartsWith P "/" then P else "/" ++ P) := by
  unfold stripLeadingSlash
  by_cases h : jsStartsWith P "/" = true
  · rw [if_pos h, if_pos h]
    rcases startsWith_slash_data h with ⟨t, ht⟩
    apply string_eq_of_data
    show ['/'] ++ P.data.tail = P.data
    rw [ht]
    rfl
  · rw [if_neg h, if_neg h]

/-- C7 (amended): the claimed URL-resolution equalities hold for every
base that is nonempty and does not already end in `/`: an empty base is
falsy in the source (`if (!base) return path`), so `resolve("", P)`
returns the path verbatim while `resolve("/", P)` does not; and the
source strips exactly one trailing slash, so a base already ending in
`/` yields a double slash when another is appended.  The second equality
(normalizing the path's leading slash) holds for every nonempty base. -/
theorem url_idempotence_amended (B P : String) (hB : B ≠ "")
    (hS : jsEndsWith B "/" = false) :
    resolve (B ++ "/") P = resolve B P ∧
      resolve B P = resolve B ("/" ++ stripLeadingSlash P) ∧
      ∀ B', B' ≠ "" → resolve B' P = resolve B' ("/" ++ stripLeadingSlash P) := by
  have hsecond : ∀ B', B' ≠ "" → resolve B' P = resolve B' ("/" ++ stripLeadingSlash P) := by
    intro B' hB'
    simp only [resolve, buildURL]
    rw [if_neg hB', if_neg hB']
    simp only [startsWith_slash_append, if_true]
    rw [norm_slash_strip P]
  refine ⟨?_, hsecond B hB, hsecond⟩
  simp only [resolve, buildURL]
  rw [if_neg (append_slash_ne_empty B), if_neg hB]
  simp [endsWith_append_slash, hS, dropLast_append_slash]

/-- Witness for C7's amended theorem: base `https://a`, path `x`. -/
theorem url_idempotence_amended_witness :
    ("https://a" : String) ≠ "" ∧ jsEndsWith "https://a" "/" = false ∧
      resolve ("https://a" ++ "/") "x" = resolve "https://a" "x" ∧
      resolve "https://a" "x" = resolve "https://a" ("/" ++ stripLeadingSlash "x") ∧
      resolve "b" "x" = resolve "b" ("/" ++ stripLeadingSlash "x") :=
  ⟨by decide, by decide,
    (url_idempotence_amended "https://a" "x" (by decide) (by decide)).1,
    (url_idempotence_amended "https://a" "x" (by decide) (by decide)).2.1,
    (url_idempotence_amended "https://a" "x" (by decide) (by decide)).2.2 "b" (by decide)⟩

/-- C8: `configureFetchiva` replaces the whole configuration value: after
any sequence of calls the store holds exactly the last argument, and in
particular `configure({baseURL:"A"}); configure({})` leaves `baseURL`
absent. -/
theorem configure_replaces_configuration {δ : Type} (init : FetchivaConfig δ)
    (calls : List (FetchivaConfig δ)) (last : FetchivaConfig δ) :
    applyConfigSeq init (calls ++ [last]) = last ∧
      (applyConfigSeq init [{ baseURL := some "A" }, {}]).baseURL = none := by
  refine ⟨?_, rfl⟩
  simp [applyConfigSeq, List.foldl_append, configureFetchiva]

/-- C9: a logical call is a function of the configuration value at its
entry alone: every `getConfig()` read of the source executes in the
synchronous prelude (before the first `await`), so two environments whose
stores agree at entry — however they are reconfigured at later suspension
points — give the call the same resolved URL, headers, timeout, retry
budget and hooks, and the same complete outcome (result and events). -/
theorem config_snapshot_isolation {δ : Type} (cfgAt cfgAt' : Nat → FetchivaConfig δ)
    (path : String) (opts : FetchivaRequestOptions) (transport : Nat → AttemptOutcome δ)
    (h : cfgAt 0 = cfgAt' 0) :
    fetchivaSched cfgAt path opts transport = fetchivaSched cfgAt' path opts transport ∧
      resolveCall (cfgAt 0) path opts = resolveCall (cfgAt' 0) path opts := by
  unfold fetchivaSched
  rw [h]
  exact ⟨rfl, rfl⟩

/-- Witness for C9: a schedule that swaps the configuration to `{}` after
entry gives the same run as one that never changes it. -/
theorem config_snapshot_isolation_witness :
    (fun n => if n = 0 then ({ baseURL := some "A" } : FetchivaConfig Nat) else {}) 0
        = (fun _ => ({ baseURL := some "A" } : FetchivaConfig Nat)) 0 ∧
      fetchivaSched (fun n => if n = 0 then ({ baseURL := some "A" } : FetchivaConfig Nat) else {})
          "/a" {} (fun _ => .resp 200 "OK" [] (.ok 1) false)
        = fetchivaSched (fun _ => ({ baseURL := some "A" } : FetchivaConfig Nat))
          "/a" {} (fun _ => .resp 200 "OK" [] (.ok 1) false) :=
  ⟨rfl, (config_snapshot_isolation _ _ "/a" {} _ rfl).1⟩

end Fetchiva
